import Mathlib

/-!
Verification of the entry search-index subsystem of openfairdb: the rating
aggregator (`src/core/util/sort.rs`), the quantization codec, the index
mutator and the query engine (`src/infrastructure/db/tantivy/mod.rs`).

Floating-point values (`f64`) are embedded as exact rationals `ℚ`; machine
integers (`u64`, `i64`, `i8`) as `ℕ`/`ℤ` with explicit bounds where they
matter.  Fallible operations return `Option`/`Except`.
-/

namespace Ofdb

/-- The six fixed rating contexts (`RatingContext` in the domain model). -/
inductive RatingContext where
  | diversity
  | renewable
  | fairness
  | humanity
  | transparency
  | solidarity
deriving DecidableEq, Repr

/-- Modelled from the spec: `AvgRatingValue` (defined outside `src/`) wraps a
bounded real number; its arithmetic (`Add`, `Div`, `Default` = 0, `From<f64>`)
is plain real arithmetic, embedded here as exact rationals. -/
abbrev AvgRatingValue := ℚ

/-- A single rating: belongs to one entry and one context and carries an
integer value (an `i8` in the source, read via `i8::from(rating.value) as i64`). -/
structure Rating where
  entryId : String
  context : RatingContext
  value : ℤ
deriving DecidableEq, Repr

/-- Embedding of `avg_rating_for_context` (src/core/util/sort.rs:64-77):
filter the ratings to the given context, fold them into a count and an exact
integer sum, and divide once; `none` when no rating matches the context. -/
def avg_rating_for_context (ratings : List Rating) (context : RatingContext) :
    Option AvgRatingValue :=
  let p := (ratings.filter fun rating => rating.context == context).foldl
    (fun acc rating => (acc.1 + 1, acc.2 + rating.value)) ((0 : ℕ), (0 : ℤ))
  if p.1 > 0 then some ((p.2 : ℚ) / (p.1 : ℚ)) else none

/-- Embedding of `Rated::avg_rating` for `Entry` (src/core/util/sort.rs:38-62):
the six per-context averages (`unwrap_or_default`, i.e. 0 for an absent
context) are summed and the sum is divided by six.  The entry itself only
participates through a debug assertion, so the embedding takes the rating
list alone. -/
def avg_rating (ratings : List Rating) : AvgRatingValue :=
  let avg_ratings := [
    avg_rating_for_context ratings .diversity,
    avg_rating_for_context ratings .renewable,
    avg_rating_for_context ratings .fairness,
    avg_rating_for_context ratings .humanity,
    avg_rating_for_context ratings .transparency,
    avg_rating_for_context ratings .solidarity]
  let sum_ratings := avg_ratings.foldl (fun acc r => acc + r.getD 0) (0 : ℚ)
  sum_ratings / 6

/-- The arithmetic mean of the rating values in one context as the spec
describes it, with an empty context contributing exactly zero. -/
def contextMean (ratings : List Rating) (context : RatingContext) : ℚ :=
  let vals := (ratings.filter fun rating => rating.context == context).map
    (fun rating => rating.value)
  if vals.length = 0 then 0 else (vals.sum : ℚ) / (vals.length : ℚ)

/-- The list of all six contexts, in the order the source enumerates them. -/
def allContexts : List RatingContext :=
  [.diversity, .renewable, .fairness, .humanity, .transparency, .solidarity]

lemma foldl_count_sum (l : List Rating) (c : ℕ) (a : ℤ) :
    l.foldl (fun acc rating => (acc.1 + 1, acc.2 + rating.value)) (c, a)
      = (c + l.length, a + (l.map fun rating => rating.value).sum) := by
  induction l generalizing c a with
  | nil => simp
  | cons x xs ih =>
      simp only [List.foldl_cons, ih, List.length_cons, List.map_cons, List.sum_cons]
      refine Prod.ext ?_ ?_ <;> simp <;> omega

lemma avg_rating_for_context_getD (ratings : List Rating) (context : RatingContext) :
    (avg_rating_for_context ratings context).getD 0 = contextMean ratings context := by
  unfold avg_rating_for_context contextMean
  simp only [foldl_count_sum]
  rcases hfil : ratings.filter fun rating => rating.context == context with _ | ⟨x, xs⟩ <;>
    simp [hfil, Function.comp_def]

lemma avg_rating_eq_sum_means (ratings : List Rating) :
    avg_rating ratings = (allContexts.map (contextMean ratings)).sum / 6 := by
  unfold avg_rating allContexts
  simp only [List.foldl_cons, List.foldl_nil, List.map_cons, List.map_nil, List.sum_cons,
    List.sum_nil, avg_rating_for_context_getD]
  ring_nf

/-- C1: the aggregate rating is the sum over the six fixed contexts of the
per-context arithmetic mean (an empty context contributing exactly zero),
divided by six; an empty rating list aggregates to 0 and the ratings
Diversity 0, Renewable 10, Fairness 7, Fairness 9 aggregate to 3. -/
theorem C1_rating_aggregation :
    (∀ ratings : List Rating,
      avg_rating ratings = (allContexts.map (contextMean ratings)).sum / 6) ∧
    avg_rating [] = 0 ∧
    avg_rating [⟨"a", .diversity, 0⟩, ⟨"a", .renewable, 10⟩,
      ⟨"a", .fairness, 7⟩, ⟨"a", .fairness, 9⟩] = 3 := by
  refine ⟨avg_rating_eq_sum_means, by simp [avg_rating, avg_rating_for_context], ?_⟩
  simp [avg_rating, avg_rating_for_context, List.filter, List.foldl]
  norm_num

lemma avg_rating_for_context_perm {r1 r2 : List Rating} (h : r1.Perm r2)
    (context : RatingContext) :
    avg_rating_for_context r1 context = avg_rating_for_context r2 context := by
  unfold avg_rating_for_context
  have hp : (r1.filter fun rating => rating.context == context).Perm
      (r2.filter fun rating => rating.context == context) := h.filter _
  simp only [foldl_count_sum, hp.length_eq, (hp.map fun rating => rating.value).sum_eq]

/-- C10: rating aggregation is order-independent: permuting the rating list
leaves `avg_rating` unchanged, because each per-context mean is an exact
count-and-sum accumulation followed by a single division. -/
theorem C10_avg_rating_perm_invariant (r1 r2 : List Rating) (h : r1.Perm r2) :
    avg_rating r1 = avg_rating r2 := by
  unfold avg_rating
  simp only [avg_rating_for_context_perm h]

/-- Witness for C10 at a concrete permutation of a two-rating list. -/
theorem C10_witness :
    (([⟨"a", .diversity, 1⟩, ⟨"a", .fairness, 2⟩] : List Rating).Perm
      [⟨"a", .fairness, 2⟩, ⟨"a", .diversity, 1⟩]) ∧
    avg_rating [⟨"a", .diversity, 1⟩, ⟨"a", .fairness, 2⟩]
      = avg_rating [⟨"a", .fairness, 2⟩, ⟨"a", .diversity, 1⟩] :=
  ⟨by decide, C10_avg_rating_perm_invariant _ _ (by decide)⟩

example :
    avg_rating [⟨"a", .diversity, 0⟩, ⟨"a", .diversity, 0⟩,
      ⟨"a", .diversity, 3⟩, ⟨"a", .diversity, 3⟩] = 1/4 := by
  simp [avg_rating, avg_rating_for_context, List.filter, List.foldl]
  norm_num

/-! ## Quantization codec (src/src/infrastructure/db/tantivy/mod.rs:106-130) -/

/-- The upper end of the quantized integer range, `u64::max_value()`. -/
def U64_MAX : ℕ := 2 ^ 64 - 1

/-- Machine epsilon of `f64` (`std::f64::EPSILON`, 2⁻⁵²) as an exact rational. -/
def F64_EPSILON : ℚ := 1 / 2 ^ 52

/-- Embedding of `f64_to_u64` (src/src/infrastructure/db/tantivy/mod.rs:106-119),
with `f64` arithmetic embedded as exact rational arithmetic: inputs within
machine epsilon of an endpoint snap to `U64_MAX` respectively `0`; otherwise
the value is clamped (`val.max(min).min(max)`), normalized, scaled by
`u64::max_value()` and rounded to the nearest integer (the value is
nonnegative here, so Rust's round-half-away-from-zero agrees with `round`). -/
def f64_to_u64 (val vmin vmax : ℚ) : ℕ :=
  if |val - vmax| ≤ F64_EPSILON then U64_MAX
  else if |val - vmin| ≤ F64_EPSILON then 0
  else
    let norm := (min (max val vmin) vmax - vmin) / (vmax - vmin)
    let mapped := (U64_MAX : ℚ) * norm
    (round mapped).toNat

/-- Embedding of `u64_to_f64` (src/src/infrastructure/db/tantivy/mod.rs:121-130):
`U64_MAX` decodes exactly to the maximum, `0` exactly to the minimum, and
anything else linearly in between. -/
def u64_to_f64 (val : ℕ) (vmin vmax : ℚ) : ℚ :=
  if val = U64_MAX then vmax
  else if val = 0 then vmin
  else vmin + (val : ℚ) * ((vmax - vmin) / (U64_MAX : ℚ))

lemma quantize_roundtrip_bound (v vmin vmax : ℚ)
    (hl : vmin ≤ v) (hr : v ≤ vmax) (hlt : vmin < vmax) :
    |u64_to_f64 (f64_to_u64 v vmin vmax) vmin vmax - v|
      ≤ max ((vmax - vmin) / (U64_MAX : ℚ)) F64_EPSILON := by
  have hU0 : (0:ℚ) < (U64_MAX : ℚ) := by norm_num [U64_MAX]
  have hD : (0:ℚ) < vmax - vmin := by linarith
  have hUne : U64_MAX ≠ 0 := by norm_num [U64_MAX]
  have hε0 : (0:ℚ) < F64_EPSILON := by norm_num [F64_EPSILON]
  unfold f64_to_u64
  split_ifs with h1 h2
  · rw [u64_to_f64, if_pos rfl]
    calc |vmax - v| = |v - vmax| := abs_sub_comm _ _
      _ ≤ F64_EPSILON := h1
      _ ≤ _ := le_max_right _ _
  · rw [u64_to_f64, if_neg (Ne.symm hUne), if_pos rfl]
    calc |vmin - v| = |v - vmin| := abs_sub_comm _ _
      _ ≤ F64_EPSILON := h2
      _ ≤ _ := le_max_right _ _
  · have hclamp : min (max v vmin) vmax = v := by
      rw [max_eq_left hl, min_eq_left hr]
    rw [hclamp]
    set U : ℚ := (U64_MAX : ℚ) with hUdef
    set D : ℚ := vmax - vmin with hDdef
    set x : ℚ := U * ((v - vmin) / D) with hxdef
    have hx0 : 0 ≤ x := by
      apply mul_nonneg hU0.le
      exact div_nonneg (by linarith) hD.le
    have hxU : x ≤ U := by
      rw [hxdef]
      have h01 : (v - vmin) / D ≤ 1 := (div_le_one hD).mpr (by linarith)
      nlinarith
    have hr0 : 0 ≤ round x := by
      rw [round_eq]
      exact Int.le_floor.mpr (by push_cast; linarith)
    have habs : |x - (round x : ℚ)| ≤ 1/2 := abs_sub_round x
    have hcast : (((round x).toNat : ℕ) : ℚ) = ((round x : ℤ) : ℚ) := by
      exact_mod_cast Int.toNat_of_nonneg hr0
    by_cases hc1 : (round x).toNat = U64_MAX
    · rw [u64_to_f64, if_pos hc1]
      have hrval : ((round x : ℤ) : ℚ) = U := by
        rw [← hcast, hc1, hUdef]
      have hxlow : U - 1/2 ≤ x := by
        have hab := abs_le.mp habs
        rw [hrval] at hab
        linarith [hab.1]
      refine le_trans ?_ (le_max_left _ _)
      rw [abs_of_nonneg (by linarith : (0:ℚ) ≤ vmax - v)]
      rw [le_div_iff₀ hU0]
      have hx2 : U - 1/2 ≤ U * (v - vmin) / D := by
        rw [mul_div_assoc, ← hxdef]
        exact hxlow
      have hkey : (U - 1/2) * D ≤ U * (v - vmin) := by
        calc (U - 1/2) * D ≤ (U * (v - vmin) / D) * D := by nlinarith
          _ = U * (v - vmin) := by field_simp
      nlinarith
    · by_cases hc2 : (round x).toNat = 0
      · rw [u64_to_f64, if_neg hc1, if_pos hc2]
        have hrval : ((round x : ℤ) : ℚ) = 0 := by
          rw [← hcast, hc2]; norm_num
        have hxhigh : x ≤ 1/2 := by
          have hab := abs_le.mp habs
          rw [hrval] at hab
          linarith [hab.2]
        refine le_trans ?_ (le_max_left _ _)
        rw [abs_of_nonpos (by linarith : vmin - v ≤ 0)]
        rw [neg_sub, le_div_iff₀ hU0]
        have hx2 : U * (v - vmin) / D ≤ 1/2 := by
          rw [mul_div_assoc, ← hxdef]
          exact hxhigh
        have hkey : U * (v - vmin) ≤ D / 2 := by
          calc U * (v - vmin) = (U * (v - vmin) / D) * D := by field_simp
            _ ≤ (1/2) * D := by nlinarith
            _ = D / 2 := by ring
        nlinarith
      · rw [u64_to_f64, if_neg hc1, if_neg hc2]
        rw [hcast]
        have hveq : v = vmin + x * (D / U) := by
          rw [hxdef]
          field_simp
        have hrw : vmin + ((round x : ℤ) : ℚ) * (D / U) - v
            = (((round x : ℤ) : ℚ) - x) * (D / U) := by
          rw [hveq]; ring
        rw [hrw, abs_mul]
        have hDU : |D / U| = D / U := abs_of_pos (div_pos hD hU0)
        rw [hDU]
        refine le_trans ?_ (le_max_left _ _)
        have h1 : |((round x : ℤ) : ℚ) - x| ≤ 1/2 := by
          rw [abs_sub_comm]; exact habs
        calc |((round x : ℤ) : ℚ) - x| * (D / U) ≤ (1/2) * (D / U) := by
              apply mul_le_mul_of_nonneg_right h1 (div_pos hD hU0).le
          _ ≤ D / U := by nlinarith [div_pos hD hU0]

/-- C2 counterexample: over the range [0, 1] the value 1 - 2⁻⁵² lies in range
and the range is non-degenerate, yet decode(encode(v)) misses v by 2⁻⁵²,
far more than one quantization step (1 - 0)/`U64_MAX`: the encoder snapped v
to `U64_MAX` because v is within machine epsilon of the maximum. -/
theorem C2_counterexample :
    (0 : ℚ) ≤ 1 - 1/2^52 ∧ (1 - 1/2^52 : ℚ) ≤ 1 ∧ (0 : ℚ) < 1 ∧
    ¬ (|u64_to_f64 (f64_to_u64 (1 - 1/2^52) 0 1) 0 1 - (1 - 1/2^52)|
        ≤ (1 - 0) / (U64_MAX : ℚ)) := by
  have henc : f64_to_u64 (1 - 1/2^52) 0 1 = U64_MAX := by
    unfold f64_to_u64
    rw [if_pos (by rw [abs_le]; constructor <;> norm_num [F64_EPSILON])]
  have hdec : u64_to_f64 U64_MAX 0 1 = 1 := by
    unfold u64_to_f64
    rw [if_pos rfl]
  refine ⟨by norm_num, by norm_num, by norm_num, ?_⟩
  rw [henc, hdec]
  have hU : (U64_MAX : ℚ) = 18446744073709551615 := by norm_num [U64_MAX]
  rw [hU, abs_le]
  push_neg
  intro h
  norm_num

/-- C2 amended: for v in [min, max] with min < max, the round trip
decode(encode(v)) reproduces v to within the larger of one quantization step
and the f64 machine epsilon (the epsilon endpoint-snapping makes errors up to
epsilon possible whenever one step is smaller than epsilon);
encode(max) = `U64_MAX`, decode(0) = min and decode(`U64_MAX`) = max hold
unconditionally, while encode(min) = 0 additionally requires the range to be
wider than machine epsilon (otherwise min itself snaps to the maximum). -/
theorem C2_quantization_amended (v vmin vmax : ℚ)
    (hl : vmin ≤ v) (hr : v ≤ vmax) (hlt : vmin < vmax) :
    |u64_to_f64 (f64_to_u64 v vmin vmax) vmin vmax - v|
      ≤ max ((vmax - vmin) / (U64_MAX : ℚ)) F64_EPSILON ∧
    f64_to_u64 vmax vmin vmax = U64_MAX ∧
    (F64_EPSILON < vmax - vmin → f64_to_u64 vmin vmin vmax = 0) ∧
    u64_to_f64 0 vmin vmax = vmin ∧
    u64_to_f64 U64_MAX vmin vmax = vmax := by
  have hUne : U64_MAX ≠ 0 := by norm_num [U64_MAX]
  have hε0 : (0:ℚ) < F64_EPSILON := by norm_num [F64_EPSILON]
  refine ⟨quantize_roundtrip_bound v vmin vmax hl hr hlt, ?_, ?_, ?_, ?_⟩
  · unfold f64_to_u64
    rw [if_pos (by simp [hε0.le])]
  · intro hwide
    unfold f64_to_u64
    rw [if_neg, if_pos (by simp [hε0.le])]
    rw [abs_sub_comm, abs_of_nonneg (by linarith)]
    linarith
  · rw [u64_to_f64, if_neg (Ne.symm hUne), if_pos rfl]
  · rw [u64_to_f64, if_pos rfl]

/-! ## Data model of the index -/

/-- An entry as the indexer consumes it (`Entry` lives outside the core; only
the fields read by `add_or_update_entry` are modelled).  The `f64` coordinates
are embedded as `Option ℚ`, `none` standing for a non-finite value. -/
structure Entry where
  id : String
  title : String
  description : String
  lat : Option ℚ
  lng : Option ℚ
  categories : List String
  tags : List String
deriving DecidableEq, Repr

/-- Modelled from the spec: `LatCoord::from_deg(..).to_raw()` and the `LngCoord`
analogue (code outside `src/`) turn degrees into a fixed-point raw integer.
The exact scale never matters to a claim; ten million steps per degree is
used, and a non-finite input (behaviour the spec leaves open) maps to 0. -/
def coordToRaw : Option ℚ → ℤ
  | some deg => round (deg * 10000000)
  | none => 0

/-- Modelled from the spec: the declared lower bound of `AvgRatingValue`
(defined outside `src/`); individual ratings range over −3..+3, and the
aggregate lies in the same closed range. -/
def avgRatingMin : ℚ := -3

/-- Modelled from the spec: the declared upper bound of `AvgRatingValue`. -/
def avgRatingMax : ℚ := 3

/-- Embedding of `avg_rating_to_u64` (src/src/infrastructure/db/tantivy/mod.rs:132-138). -/
def avg_rating_to_u64 (avg : AvgRatingValue) : ℕ :=
  f64_to_u64 avg avgRatingMin avgRatingMax

/-- Embedding of `u64_to_avg_rating` (src/src/infrastructure/db/tantivy/mod.rs:140-147). -/
def u64_to_avg_rating (val : ℕ) : AvgRatingValue :=
  u64_to_f64 val avgRatingMin avgRatingMax

/-- Lower-casing as `str::to_lowercase` performs it: character-wise
lower-casing of the string (ASCII case folding; Unicode special casing never
matters to a claim). -/
def lowercase (s : String) : String := ⟨s.data.map Char.toLower⟩

/-- A document of the index, as the schema (`build_schema`,
src/src/infrastructure/db/tantivy/mod.rs:45-93) defines it.  `id` is an
`Option` because a retrieved document may lack the field
(`doc.get_first(..)`).  `catTokens` holds the indexed tokens of the category
field: the `ID_TOKENIZER` is `"raw"`, so each stored category string is one
verbatim token with no case folding.  `tagTokens` holds the indexed tokens of
the tag field, produced by the custom `TAG_TOKENIZER` (raw + `LowerCaser`),
i.e. the stored strings lower-cased. -/
structure Doc where
  id : Option String
  lat : ℤ
  lng : ℤ
  title : String
  description : String
  catTokens : List String
  tagTokens : List String
  rating : ℕ
deriving DecidableEq, Repr

/-- Embedding of the document construction inside `add_or_update_entry`
(src/src/infrastructure/db/tantivy/mod.rs:189-208). -/
def docOfEntry (entry : Entry) (avg : AvgRatingValue) : Doc where
  id := some entry.id
  lat := coordToRaw entry.lat
  lng := coordToRaw entry.lng
  title := entry.title
  description := entry.description
  catTokens := entry.categories
  tagTokens := entry.tags.map lowercase
  rating := avg_rating_to_u64 avg

/-! ## Index mutator (src/src/infrastructure/db/tantivy/mod.rs:184-222)

The tantivy `IndexWriter` buffers operations and applies them, in order, at
`commit()`; queries only ever read the last committed view.  This is the
state machine the mutator drives. -/

/-- A buffered writer operation.  `add_or_update_entry` issues a
delete-by-id-term immediately followed by an insert of the new document;
since the two calls are adjacent and apply in order at commit, the pair is
one `upsert` op.  `remove_entry_by_id` buffers a lone delete. -/
inductive WriterOp where
  | upsert (doc : Doc)
  | deleteById (id : String)
deriving DecidableEq, Repr

/-- The mutator's state: the last committed (query-visible) document list and
the buffered, not-yet-visible operations. -/
structure IndexState where
  committed : List Doc
  pending : List WriterOp
deriving DecidableEq, Repr

/-- A freshly created index: nothing committed, nothing pending. -/
def emptyIndex : IndexState := ⟨[], []⟩

/-- How one buffered op transforms the committed documents at commit: a
delete removes every document whose id term matches; an upsert removes every
document carrying the new document's id and then adds the new document. -/
def applyWriterOp (docs : List Doc) : WriterOp → List Doc
  | .deleteById id => docs.filter fun d => d.id != some id
  | .upsert doc => (docs.filter fun d => d.id != doc.id) ++ [doc]

/-- Embedding of `add_or_update_entry` (mod.rs:185-210): buffer a delete of
the entry's id term followed by an insert of the rebuilt document. -/
def add_or_update_entry (s : IndexState) (entry : Entry) (avg : AvgRatingValue) :
    IndexState :=
  { s with pending := s.pending ++ [WriterOp.upsert (docOfEntry entry avg)] }

/-- Embedding of `remove_entry_by_id` (mod.rs:212-216): buffer a
delete-by-id-term; never an error, whether or not the id exists. -/
def remove_entry_by_id (s : IndexState) (id : String) : IndexState :=
  { s with pending := s.pending ++ [WriterOp.deleteById id] }

/-- Embedding of `flush` (mod.rs:218-222): commit all buffered operations in
order and reload the searchers, making the result query-visible. -/
def flush (s : IndexState) : IndexState :=
  { committed := s.pending.foldl applyWriterOp s.committed, pending := [] }

/-- The document list queries run against: the last committed view. -/
def query_visible (s : IndexState) : List Doc := s.committed

/-- One call of the mutation interface exposed by the indexer. -/
inductive ApiCall where
  | upsert (entry : Entry) (avg : AvgRatingValue)
  | removeById (id : String)
  | commit
deriving Repr

/-- Run one interface call against the index state. -/
def runCall (s : IndexState) : ApiCall → IndexState
  | .upsert entry avg => add_or_update_entry s entry avg
  | .removeById id => remove_entry_by_id s id
  | .commit => flush s

/-- Run a whole sequence of interface calls from a given state. -/
def runCalls (s : IndexState) (calls : List ApiCall) : IndexState :=
  calls.foldl runCall s

/-- Number of live documents carrying a given entry identifier. -/
def docCount (docs : List Doc) (id : String) : ℕ :=
  (docs.filter fun d => d.id == some id).length

lemma docCount_append (a b : List Doc) (id : String) :
    docCount (a ++ b) id = docCount a id + docCount b id := by
  simp [docCount, List.filter_append]

lemma docCount_filter_le (docs : List Doc) (p : Doc → Bool) (id : String) :
    docCount (docs.filter p) id ≤ docCount docs id := by
  have h : (docs.filter p).Sublist docs := List.filter_sublist docs
  exact (h.filter _).length_le

lemma applyWriterOp_docCount_le (docs : List Doc) (op : WriterOp) (id : String)
    (h : docCount docs id ≤ 1) : docCount (applyWriterOp docs op) id ≤ 1 := by
  cases op with
  | deleteById did => exact le_trans (docCount_filter_le _ _ _) h
  | upsert doc =>
      rw [applyWriterOp, docCount_append]
      by_cases hid : doc.id = some id
      · have hzero : docCount (docs.filter fun d => d.id != doc.id) id = 0 := by
          simp only [docCount, List.filter_filter, List.length_eq_zero]
          apply List.filter_eq_nil_iff.mpr
          intro d _
          simp [hid]
        rw [hzero]
        simp [docCount, hid]
      · have hone : docCount [doc] id = 0 := by
          simp [docCount, List.filter_cons, hid]
        rw [hone]
        exact le_trans (by simp [docCount_filter_le _ _ _]) h

lemma foldl_applyWriterOp_docCount_le (ops : List WriterOp) (docs : List Doc)
    (id : String) (h : docCount docs id ≤ 1) :
    docCount (ops.foldl applyWriterOp docs) id ≤ 1 := by
  induction ops generalizing docs with
  | nil => exact h
  | cons op rest ih =>
      exact ih _ (applyWriterOp_docCount_le docs op id h)

lemma runCalls_docCount_le (calls : List ApiCall) (s : IndexState)
    (h : ∀ id, docCount s.committed id ≤ 1) (id : String) :
    docCount (runCalls s calls).committed id ≤ 1 := by
  induction calls generalizing s with
  | nil => exact h id
  | cons c rest ih =>
      refine ih (runCall s c) ?_
      intro id2
      cases c with
      | upsert entry avg => exact h id2
      | removeById did => exact h id2
      | commit => exact foldl_applyWriterOp_docCount_le _ _ _ (h id2)

lemma iterate_upsert_pending (s : IndexState) (entry : Entry)
    (avg : AvgRatingValue) (n : ℕ) :
    ((fun t => add_or_update_entry t entry avg)^[n] s).pending
      = s.pending ++ List.replicate n (WriterOp.upsert (docOfEntry entry avg)) ∧
    ((fun t => add_or_update_entry t entry avg)^[n] s).committed = s.committed := by
  induction n with
  | zero => simp
  | succ m ih =>
      rw [Function.iterate_succ_apply']
      refine ⟨?_, ?_⟩
      · rw [add_or_update_entry, ih.1, List.replicate_succ']
        simp
      · exact ih.2

lemma upsert_then_flush_count (s : IndexState) (entry : Entry)
    (avg : AvgRatingValue) (n : ℕ) (hn : 1 ≤ n) :
    docCount (query_visible (flush
      ((fun t => add_or_update_entry t entry avg)^[n] s))) entry.id = 1 := by
  obtain ⟨m, rfl⟩ : ∃ m, n = m + 1 := ⟨n - 1, by omega⟩
  have hp := iterate_upsert_pending s entry avg (m + 1)
  rw [query_visible, flush, hp.1, hp.2, List.replicate_succ', ← List.append_assoc,
    List.foldl_append]
  rw [List.foldl_cons, List.foldl_nil, applyWriterOp, docCount_append]
  have hzero : docCount
      ((List.foldl applyWriterOp s.committed
        (s.pending ++ List.replicate m (WriterOp.upsert (docOfEntry entry avg)))).filter
        fun d => d.id != (docOfEntry entry avg).id) entry.id = 0 := by
    simp only [docCount, List.filter_filter, List.length_eq_zero]
    apply List.filter_eq_nil_iff.mpr
    intro d _
    simp [docOfEntry]
  rw [hzero]
  simp [docCount, List.filter, docOfEntry]

/-- C3: upsert is delete-then-insert, so (a) upserting the same identifier any
number n ≥ 1 of times from any state and then committing leaves exactly one
live document with that identifier, and (b) along any sequence of interface
calls from a fresh index, every committed point holds at most one live
document per identifier. -/
theorem C3_upsert_unique_doc :
    (∀ (s : IndexState) (entry : Entry) (avg : AvgRatingValue) (n : ℕ), 1 ≤ n →
      docCount (query_visible (flush
        ((fun t => add_or_update_entry t entry avg)^[n] s))) entry.id = 1) ∧
    (∀ (calls : List ApiCall) (id : String),
      docCount (query_visible (runCalls emptyIndex calls)) id ≤ 1) :=
  ⟨upsert_then_flush_count,
    fun calls id => runCalls_docCount_le calls emptyIndex (by simp [docCount, emptyIndex]) id⟩

/-- Witness for C3: two upserts of one entry from a fresh index followed by a
commit leave exactly one document, and a fresh index satisfies the committed
invariant after one commit call. -/
theorem C3_witness :
    (1 ≤ 2 ∧ docCount (query_visible (flush
      ((fun t => add_or_update_entry t ⟨"a", "t", "d", some 0, some 0, [], []⟩ 0)^[2]
        emptyIndex))) "a" = 1) ∧
    docCount (query_visible (runCalls emptyIndex [ApiCall.commit])) "a" ≤ 1 :=
  ⟨⟨by norm_num,
      C3_upsert_unique_doc.1 emptyIndex ⟨"a", "t", "d", some 0, some 0, [], []⟩ 0 2
        (by norm_num)⟩,
    C3_upsert_unique_doc.2 [ApiCall.commit] "a"⟩

/-- C4: buffered mutations are invisible before a commit — neither upsert nor
remove changes the query-visible document list (commit is the only interface
call that does) — a document committed earlier is still visible between a
remove and the commit, and after remove-then-commit no visible document
carries the removed identifier. -/
theorem C4_commit_visibility :
    (∀ (s : IndexState) (entry : Entry) (avg : AvgRatingValue),
      query_visible (add_or_update_entry s entry avg) = query_visible s) ∧
    (∀ (s : IndexState) (id : String),
      query_visible (remove_entry_by_id s id) = query_visible s) ∧
    (∀ (s : IndexState) (id : String) (d : Doc),
      d ∈ query_visible s → d ∈ query_visible (remove_entry_by_id s id)) ∧
    (∀ (s : IndexState) (id : String) (d : Doc),
      d ∈ query_visible (flush (remove_entry_by_id s id)) → d.id ≠ some id) := by
  refine ⟨fun s entry avg => rfl, fun s id => rfl, fun s id d h => h, ?_⟩
  intro s id d hd
  rw [query_visible, flush, remove_entry_by_id] at hd
  simp only [List.foldl_append, List.foldl_cons, List.foldl_nil, applyWriterOp] at hd
  have := List.of_mem_filter hd
  simpa using this

/-- Witness for C4: a concrete committed document stays visible across a
buffered remove. -/
theorem C4_witness :
    ((⟨some "a", 0, 0, "t", "d", [], [], 0⟩ : Doc)
        ∈ query_visible (⟨[⟨some "a", 0, 0, "t", "d", [], [], 0⟩], []⟩ : IndexState)) ∧
    (⟨some "a", 0, 0, "t", "d", [], [], 0⟩ : Doc)
        ∈ query_visible (remove_entry_by_id
          (⟨[⟨some "a", 0, 0, "t", "d", [], [], 0⟩], []⟩ : IndexState) "a") :=
  ⟨by simp [query_visible],
    C4_commit_visibility.2.2.1 ⟨[⟨some "a", 0, 0, "t", "d", [], [], 0⟩], []⟩ "a"
      ⟨some "a", 0, 0, "t", "d", [], [], 0⟩ (by simp [query_visible])⟩

/-! ## Query engine (src/src/infrastructure/db/tantivy/mod.rs:225-365) -/

/-- The index fields a query clause can target. -/
inductive TField where
  | lat
  | lng
  | category
  | tag
deriving DecidableEq, Repr

/-- Occurrence of a clause in a tantivy `BooleanQuery`. -/
inductive TOccur where
  | must
  | mustNot
  | should
deriving DecidableEq, Repr

/-- A primitive query: an inclusive `RangeQuery`, an exclusive `RangeQuery`,
an exact `TermQuery`, or a parsed free-text query.  The text query is
whatever tantivy's `QueryParser` (outside this repository) produced,
abstracted as a predicate on documents. -/
inductive TLeaf where
  | rangeIncl (f : TField) (lo hi : ℤ)
  | rangeExcl (f : TField) (lo hi : ℤ)
  | term (f : TField) (text : String)
  | textQuery (p : Doc → Bool)

/-- A sub-query pushed into the top-level conjunction: either a primitive
query or a nested `BooleanQuery` of primitive clauses (the category and tag
groups). -/
inductive TSub where
  | leaf (l : TLeaf)
  | boolean (cs : List (TOccur × TLeaf))

/-- A bounding box in raw fixed-point coordinates (the source reads
`bbox.south_west().lat().to_raw()` and friends; the ordering of `LngCoord`
values is the ordering of their raw integers). -/
structure MapBbox where
  swLat : ℤ
  swLng : ℤ
  neLat : ℤ
  neLng : ℤ
deriving DecidableEq, Repr

/-- The structured search request `EntryIndexQuery`. -/
structure EntryIndexQuery where
  bbox : Option MapBbox
  text : Option String
  categories : List String
  tags : List String

/-- The integer value a document holds in an integer field. -/
def intField (d : Doc) : TField → ℤ
  | .lat => d.lat
  | .lng => d.lng
  | .category => 0
  | .tag => 0

/-- The indexed tokens a document holds in a token field. -/
def tokensOf (d : Doc) : TField → List String
  | .category => d.catTokens
  | .tag => d.tagTokens
  | _ => []

/-- Whether a document matches a primitive query: range queries compare the
integer field against the bounds, a term query requires the exact token to
be present among the document's indexed tokens. -/
def evalLeaf (d : Doc) : TLeaf → Bool
  | .rangeIncl f lo hi => decide (lo ≤ intField d f) && decide (intField d f ≤ hi)
  | .rangeExcl f lo hi => decide (lo < intField d f) && decide (intField d f < hi)
  | .term f text => decide (text ∈ tokensOf d f)
  | .textQuery p => p d

/-- Whether a clause satisfies the hard constraints of a boolean query: a
`Must` clause has to match, a `MustNot` clause must not, a `Should` clause
imposes none. -/
def requiredOk {α : Type} (evalOne : α → Bool) : TOccur × α → Bool
  | (TOccur.must, q) => evalOne q
  | (TOccur.mustNot, q) => !evalOne q
  | (TOccur.should, _) => true

/-- Whether a clause is a `Must` clause. -/
def isMustClause {α : Type} : TOccur × α → Bool
  | (TOccur.must, _) => true
  | _ => false

/-- Whether a clause is a matching `Should` clause. -/
def shouldOk {α : Type} (evalOne : α → Bool) : TOccur × α → Bool
  | (TOccur.should, q) => evalOne q
  | _ => false

/-- Tantivy/Lucene `BooleanQuery` semantics: every `Must` clause must match,
no `MustNot` clause may match, and when no `Must` clause exists at least one
`Should` clause must match (when `Must` clauses exist, `Should` clauses only
affect scoring). -/
def evalClauses {α : Type} (evalOne : α → Bool) (cs : List (TOccur × α)) : Bool :=
  cs.all (requiredOk evalOne) &&
    (cs.any isMustClause || cs.any (shouldOk evalOne))

/-- Whether a document matches a sub-query. -/
def evalSub (d : Doc) : TSub → Bool
  | .leaf l => evalLeaf d l
  | .boolean cs => evalClauses (evalLeaf d) cs

/-- Embedding of the query-construction phase of `query_entries`
(src/src/infrastructure/db/tantivy/mod.rs:232-324).  `parse` stands for
`QueryParser::parse_query` over the title and description fields.  The four
clause groups are pushed in source order: bounding box (latitude always an
inclusive `Must` range; longitude an inclusive `Must` range when south-west
≤ north-east, otherwise a `MustNot` exclusive range over the complementary
band), free text (dropped when parsing fails), categories (single term, or
`Should` group wrapped in a `Must`), and tags (same pattern). -/
def buildSubQueries (parse : String → Except String (Doc → Bool))
    (query : EntryIndexQuery) : List (TOccur × TSub) :=
  let sub0 : List (TOccur × TSub) := []
  let sub1 := match query.bbox with
    | some bbox =>
        let withLat := sub0 ++
          [(TOccur.must, TSub.leaf (.rangeIncl .lat bbox.swLat bbox.neLat))]
        if bbox.swLng ≤ bbox.neLng then
          withLat ++ [(TOccur.must, TSub.leaf (.rangeIncl .lng bbox.swLng bbox.neLng))]
        else
          withLat ++ [(TOccur.mustNot, TSub.leaf (.rangeExcl .lng bbox.neLng bbox.swLng))]
    | none => sub0
  let sub2 := match query.text with
    | some text =>
        match parse (lowercase text) with
        | .ok q => sub1 ++ [(TOccur.must, TSub.leaf (.textQuery q))]
        | .error _ => sub1
    | none => sub1
  let sub3 := match query.categories with
    | [] => sub2
    | [category] => sub2 ++ [(TOccur.must, TSub.leaf (.term .category (lowercase category)))]
    | categories => sub2 ++ [(TOccur.must, TSub.boolean
        (categories.map fun category =>
          (TOccur.should, TLeaf.term .category (lowercase category))))]
  match query.tags with
  | [] => sub3
  | [tag] => sub3 ++ [(TOccur.must, TSub.leaf (.term .tag (lowercase tag)))]
  | tags => sub3 ++ [(TOccur.must, TSub.boolean
      (tags.map fun tag => (TOccur.should, TLeaf.term .tag (lowercase tag))))]

/-- Whether a document matches the composed top-level boolean query. -/
def matchesQuery (parse : String → Except String (Doc → Bool))
    (query : EntryIndexQuery) (d : Doc) : Bool :=
  evalClauses (evalSub d) (buildSubQueries parse query)

/-- C5: with a bounding box, the latitude clause is an inclusive range
conjunct, the longitude clause is an inclusive range conjunct when south-west
longitude ≤ north-east longitude and otherwise a negated exclusive range
excluding exactly the longitudes strictly between north-east and south-west;
consequently, in the wrap case a document at exactly the north-east or the
south-west longitude (with latitude in range) matches. -/
theorem C5_bbox_semantics (parse : String → Except String (Doc → Bool))
    (bbox : MapBbox) (d : Doc) :
    (matchesQuery parse ⟨some bbox, none, [], []⟩ d = true ↔
      (bbox.swLat ≤ d.lat ∧ d.lat ≤ bbox.neLat ∧
        (if bbox.swLng ≤ bbox.neLng then bbox.swLng ≤ d.lng ∧ d.lng ≤ bbox.neLng
         else ¬(bbox.neLng < d.lng ∧ d.lng < bbox.swLng)))) ∧
    (bbox.neLng < bbox.swLng → (d.lng = bbox.neLng ∨ d.lng = bbox.swLng) →
      bbox.swLat ≤ d.lat → d.lat ≤ bbox.neLat →
      matchesQuery parse ⟨some bbox, none, [], []⟩ d = true) := by
  constructor
  · by_cases hlng : bbox.swLng ≤ bbox.neLng <;>
      simp [matchesQuery, buildSubQueries, evalClauses, evalSub, evalLeaf, intField,
        hlng, requiredOk, isMustClause, shouldOk] <;> omega
  · intro hwrap hboundary hlat1 hlat2
    have hlng : ¬ bbox.swLng ≤ bbox.neLng := by omega
    simp [matchesQuery, buildSubQueries, evalClauses, evalSub, evalLeaf, intField,
      hlng, requiredOk, isMustClause, shouldOk]
    omega

/-- Witness for C5: a wrapping box (south-west longitude 170, north-east
longitude −170) and a document sitting exactly at the north-east longitude. -/
theorem C5_witness :
    ((-170 : ℤ) < 170 ∧ ((-170 : ℤ) = -170 ∨ (-170 : ℤ) = 170) ∧
      (-10 : ℤ) ≤ 0 ∧ (0 : ℤ) ≤ 10) ∧
    matchesQuery (fun _ => Except.error "") ⟨some ⟨-10, 170, 10, -170⟩, none, [], []⟩
      ⟨some "a", 0, -170, "t", "d", [], [], 0⟩ = true :=
  ⟨⟨by decide, Or.inl (by decide), by decide, by decide⟩,
    (C5_bbox_semantics (fun _ => Except.error "") ⟨-10, 170, 10, -170⟩
      ⟨some "a", 0, -170, "t", "d", [], [], 0⟩).2
      (by decide) (Or.inl (by decide)) (by decide) (by decide)⟩

/-- C6: categories are OR-ed inside their group and tags inside theirs, and
each non-empty group is AND-ed into the top query: for lower-case category
identifiers A, B and tag X (and entries whose tag tokens are lower-case, as
the tag tokenizer guarantees for the indexed side), a query with categories
A, B and tag X matches the indexed document of an entry exactly when the
entry has category A or category B, and has tag X. -/
theorem C6_category_tag_combination (parse : String → Except String (Doc → Bool))
    (A B X : String) (e : Entry) (avg : AvgRatingValue)
    (hA : lowercase A = A) (hB : lowercase B = B) (hX : lowercase X = X)
    (htags : ∀ t ∈ e.tags, lowercase t = t) :
    matchesQuery parse ⟨none, none, [A, B], [X]⟩ (docOfEntry e avg) = true ↔
      ((A ∈ e.categories ∨ B ∈ e.categories) ∧ X ∈ e.tags) := by
  have hmap : X ∈ e.tags.map lowercase ↔ X ∈ e.tags := by
    constructor
    · intro h
      obtain ⟨t, ht, heq⟩ := List.mem_map.mp h
      rw [htags t ht] at heq
      rwa [heq] at ht
    · intro h
      exact List.mem_map.mpr ⟨X, h, htags X h⟩
  simp [matchesQuery, buildSubQueries, evalClauses, evalSub, evalLeaf, tokensOf,
    requiredOk, isMustClause, shouldOk, docOfEntry, hA, hB, hX, hmap]

/-- Witness for C6 at a concrete entry carrying one of the two categories and
the requested tag. -/
theorem C6_witness :
    (lowercase "org" = "org" ∧ lowercase "farm" = "farm" ∧ lowercase "bio" = "bio" ∧
      (∀ t ∈ (["bio"] : List String), lowercase t = t)) ∧
    (matchesQuery (fun _ => Except.error "") ⟨none, none, ["org", "farm"], ["bio"]⟩
        (docOfEntry ⟨"e1", "t", "d", some 0, some 0, ["farm"], ["bio"]⟩ 0) = true ↔
      (("org" ∈ (["farm"] : List String) ∨ "farm" ∈ (["farm"] : List String)) ∧
        "bio" ∈ (["bio"] : List String))) :=
  ⟨⟨by decide, by decide, by decide, by decide⟩,
    C6_category_tag_combination (fun _ => Except.error "") "org" "farm" "bio"
      ⟨"e1", "t", "d", some 0, some 0, ["farm"], ["bio"]⟩ 0
      (by decide) (by decide) (by decide) (by decide)⟩

/-- C8 counterexample: an entry stored with category token "A" is not matched
by a query requesting category "A": the query side lower-cases the requested
category to "a", but the category field uses the raw `ID_TOKENIZER`, so the
indexed token stays "A" and the term query misses. -/
theorem C8_counterexample :
    matchesQuery (fun _ => Except.error "") ⟨none, none, ["A"], []⟩
      (docOfEntry ⟨"e1", "t", "d", some 0, some 0, ["A"], []⟩ 0) = false := by
  decide

/-- C8 amended: the category clause lower-cases only the query side while the
stored category tokens are indexed verbatim, so a single-category query
matches an entry's document exactly when the lower-cased queried category is
literally among the entry's stored category tokens; matching is
case-insensitive in the query only for entries whose stored tokens are
already lower-case. -/
theorem C8_category_case_amended (parse : String → Except String (Doc → Bool))
    (e : Entry) (avg : AvgRatingValue) (cat : String) :
    matchesQuery parse ⟨none, none, [cat], []⟩ (docOfEntry e avg) = true ↔
      lowercase cat ∈ e.categories := by
  simp [matchesQuery, buildSubQueries, evalClauses, evalSub, evalLeaf, tokensOf,
    requiredOk, isMustClause, shouldOk, docOfEntry]

/-- Outcome classification for one matched search hit: true when the
document fetch failed, the id field is missing, or the repository resolution
failed — the cases `query_entries` skips. -/
def badResult (resolve : String → List String → List String → Except String Entry) :
    ℕ × Except String Doc → Bool
  | (_, .error _) => true
  | (_, .ok doc) =>
      match doc.id with
      | none => true
      | some id =>
          match resolve id doc.catTokens doc.tagTokens with
          | .error _ => true
          | .ok _ => false

/-- Embedding of the result-resolution loop of `query_entries`
(src/src/infrastructure/db/tantivy/mod.rs:331-364): each matched hit carries
the rating from the collector and the searcher's document fetch result; a
fetch failure, a missing id field or a repository miss is logged and
skipped, everything else is materialized in order with its decoded rating. -/
def processTopDocs (resolve : String → List String → List String → Except String Entry) :
    List (ℕ × Except String Doc) → List (Entry × AvgRatingValue)
  | [] => []
  | (rating, docRes) :: rest =>
      let tail := processTopDocs resolve rest
      match docRes with
      | .ok doc =>
          match doc.id with
          | some id =>
              match resolve id doc.catTokens doc.tagTokens with
              | .ok entry => (entry, u64_to_avg_rating rating) :: tail
              | .error _ => tail
          | none => tail
      | .error _ => tail

/-- Embedding of the tail of `query_entries` (mod.rs:330-364): after the
searcher returns its matches, the loop never aborts and the function returns
`Ok` with the resolved results. -/
def query_entries (resolve : String → List String → List String → Except String Entry)
    (topDocs : List (ℕ × Except String Doc)) :
    Except String (List (Entry × AvgRatingValue)) :=
  Except.ok (processTopDocs resolve topDocs)

lemma processTopDocs_append
    (resolve : String → List String → List String → Except String Entry)
    (a b : List (ℕ × Except String Doc)) :
    processTopDocs resolve (a ++ b)
      = processTopDocs resolve a ++ processTopDocs resolve b := by
  induction a with
  | nil => simp [processTopDocs]
  | cons hd tl ih =>
      obtain ⟨rating, docRes⟩ := hd
      cases docRes with
      | error e => simp [processTopDocs, ih]
      | ok doc =>
          cases hdoc : doc.id with
          | none => simp [processTopDocs, hdoc, ih]
          | some id =>
              cases hres : resolve id doc.catTokens doc.tagTokens with
              | error e => simp [processTopDocs, hdoc, hres, ih]
              | ok entry => simp [processTopDocs, hdoc, hres, ih]

lemma processTopDocs_bad
    (resolve : String → List String → List String → Except String Entry)
    (bad : ℕ × Except String Doc) (h : badResult resolve bad = true) :
    processTopDocs resolve [bad] = [] := by
  obtain ⟨rating, docRes⟩ := bad
  cases docRes with
  | error e => simp [processTopDocs]
  | ok doc =>
      cases hdoc : doc.id with
      | none => simp [processTopDocs, hdoc]
      | some id =>
          cases hres : resolve id doc.catTokens doc.tagTokens with
          | error e => simp [processTopDocs, hdoc, hres]
          | ok entry =>
              exfalso
              simp [badResult, hdoc, hres] at h

/-- C7: per-query and per-result problems never fail the search: a free-text
string that fails to parse only drops the text clause (the rest of the query
is built unchanged), the result assembly always returns `Ok`, and a matched
hit whose document fetch fails, whose id field is missing, or whose
repository resolution fails is excluded while the surrounding results
survive. -/
theorem C7_error_absorption
    (parse : String → Except String (Doc → Bool))
    (resolve : String → List String → List String → Except String Entry) :
    (∀ (query : EntryIndexQuery) (text err : String),
      query.text = some text → parse (lowercase text) = .error err →
      buildSubQueries parse query
        = buildSubQueries parse ⟨query.bbox, none, query.categories, query.tags⟩) ∧
    (∀ topDocs, (query_entries resolve topDocs).isOk = true) ∧
    (∀ (l1 l2 : List (ℕ × Except String Doc)) (bad : ℕ × Except String Doc),
      badResult resolve bad = true →
      query_entries resolve (l1 ++ bad :: l2)
        = Except.ok (processTopDocs resolve l1 ++ processTopDocs resolve l2)) := by
  refine ⟨?_, fun topDocs => rfl, ?_⟩
  · intro query text err htext hparse
    simp [buildSubQueries, htext, hparse]
  · intro l1 l2 bad hbad
    have : l1 ++ bad :: l2 = l1 ++ [bad] ++ l2 := by simp
    rw [query_entries, this, processTopDocs_append, processTopDocs_append,
      processTopDocs_bad resolve bad hbad]
    simp

/-- Witness for C7: a query whose text fails to parse, and a hit with a
missing id between two resolvable hits. -/
theorem C7_witness :
    ((⟨none, some "bad(", [], []⟩ : EntryIndexQuery).text = some "bad(" ∧
      (fun _ => (Except.error "parse" : Except String (Doc → Bool))) (lowercase "bad(")
        = Except.error "parse") ∧
    badResult (fun id cats tags => Except.ok ⟨id, "t", "d", some 0, some 0, cats, tags⟩)
      (0, Except.ok ⟨none, 0, 0, "t", "d", [], [], 0⟩) = true ∧
    buildSubQueries (fun _ => (Except.error "parse" : Except String (Doc → Bool)))
        (⟨none, some "bad(", [], []⟩ : EntryIndexQuery)
      = buildSubQueries (fun _ => (Except.error "parse" : Except String (Doc → Bool)))
        ⟨none, none, [], []⟩ ∧
    query_entries (fun id cats tags => Except.ok ⟨id, "t", "d", some 0, some 0, cats, tags⟩)
        ([(3, Except.ok ⟨some "a", 0, 0, "t", "d", [], [], 3⟩)]
          ++ (0, Except.ok ⟨none, 0, 0, "t", "d", [], [], 0⟩)
          :: [(2, Except.ok ⟨some "b", 0, 0, "t", "d", [], [], 2⟩)])
      = Except.ok (processTopDocs
            (fun id cats tags => Except.ok ⟨id, "t", "d", some 0, some 0, cats, tags⟩)
            [(3, Except.ok ⟨some "a", 0, 0, "t", "d", [], [], 3⟩)]
          ++ processTopDocs
            (fun id cats tags => Except.ok ⟨id, "t", "d", some 0, some 0, cats, tags⟩)
            [(2, Except.ok ⟨some "b", 0, 0, "t", "d", [], [], 2⟩)]) :=
  ⟨⟨rfl, rfl⟩, rfl,
    (C7_error_absorption (fun _ => Except.error "parse")
      (fun id cats tags => Except.ok ⟨id, "t", "d", some 0, some 0, cats, tags⟩)).1
      ⟨none, some "bad(", [], []⟩ "bad(" "parse" rfl rfl,
    (C7_error_absorption (fun _ => Except.error "parse")
      (fun id cats tags => Except.ok ⟨id, "t", "d", some 0, some 0, cats, tags⟩)).2.2
      [(3, Except.ok ⟨some "a", 0, 0, "t", "d", [], [], 3⟩)]
      [(2, Except.ok ⟨some "b", 0, 0, "t", "d", [], [], 2⟩)]
      (0, Except.ok ⟨none, 0, 0, "t", "d", [], [], 0⟩) rfl⟩

/-! ## Distance sort (src/src/core/util/sort.rs:5-32) -/

/-- Modelled from the spec: a `MapPoint` (defined outside `src/`) holds a
latitude/longitude coordinate pair in degrees, embedded as exact rationals. -/
structure MapPoint where
  lat : ℚ
  lng : ℚ
deriving DecidableEq, Repr

/-- Modelled from the spec: `MapPoint::is_valid` holds when the coordinate
lies within the valid degree ranges (a rational is always finite). -/
def MapPoint.is_valid (p : MapPoint) : Bool :=
  decide (-90 ≤ p.lat) && decide (p.lat ≤ 90) &&
    decide (-180 ≤ p.lng) && decide (p.lng ≤ 180)

/-- Modelled from the spec: `MapPoint::try_from_lat_lng_deg` yields `some`
exactly when both degree values are finite and form a valid coordinate. -/
def MapPoint.try_from_lat_lng_deg (lat lng : Option ℚ) : Option MapPoint :=
  match lat, lng with
  | some la, some ln => if (MapPoint.mk la ln).is_valid then some ⟨la, ln⟩ else none
  | _, _ => none

/-- A distance: a finite exact value or `Distance::infinite`, embedded as
`WithTop ℚ` with `⊤` for the infinite distance. -/
abbrev Distance := WithTop ℚ

/-- Modelled from the spec: `MapPoint::distance` succeeds exactly when both
points are valid; the numeric great-circle formula itself (code outside
`src/`) is abstracted as the parameter `distFn`, so every theorem below
holds for any distance function. -/
def MapPoint.distance (distFn : MapPoint → MapPoint → ℚ) (p q : MapPoint) :
    Option Distance :=
  if p.is_valid && q.is_valid then some ((distFn p q : ℚ) : Distance) else none

/-- Embedding of `DistanceTo::distance_to` for `Entry`
(src/src/core/util/sort.rs:9-15): convert the entry's coordinates, compute
the distance to the reference point, and fall back to the infinite distance
when either step fails. -/
def distance_to (distFn : MapPoint → MapPoint → ℚ) (e : Entry) (there : MapPoint) :
    Distance :=
  ((MapPoint.try_from_lat_lng_deg e.lat e.lng).bind
    fun here => MapPoint.distance distFn here there).getD ⊤

/-- Rust's `partial_cmp` on distances; exact rationals admit no NaN, so the
comparison always succeeds. -/
def distPartialCmp (a b : Distance) : Option Ordering := some (compare a b)

/-- The comparator `sort_by` receives: `partial_cmp(..).unwrap_or(Equal)`
(src/src/core/util/sort.rs:26-30). -/
def distanceComparator (distFn : MapPoint → MapPoint → ℚ) (center : MapPoint)
    (a b : Entry) : Ordering :=
  (distPartialCmp (distance_to distFn a center) (distance_to distFn b center)).getD .eq

/-- Embedding of `sort_by_distance_to` (src/src/core/util/sort.rs:21-32):
return the list unchanged when the reference point is invalid, otherwise
stable-sort by the comparator (Rust's `sort_by` is a stable merge sort; an
element precedes another when the comparator does not say `Greater`). -/
def sort_by_distance_to (distFn : MapPoint → MapPoint → ℚ) (entries : List Entry)
    (center : MapPoint) : List Entry :=
  if !center.is_valid then entries
  else entries.mergeSort fun a b =>
    decide (distanceComparator distFn center a b ≠ Ordering.gt)

lemma comparator_le_iff (distFn : MapPoint → MapPoint → ℚ) (center : MapPoint)
    (a b : Entry) :
    decide (distanceComparator distFn center a b ≠ Ordering.gt) = true ↔
      distance_to distFn a center ≤ distance_to distFn b center := by
  rw [decide_eq_true_iff, distanceComparator, distPartialCmp, Option.getD_some, ne_eq,
    compare_gt_iff_gt]
  exact not_lt

lemma try_from_is_valid {lat lng : Option ℚ} {p : MapPoint}
    (h : MapPoint.try_from_lat_lng_deg lat lng = some p) : p.is_valid = true := by
  rcases lat with _ | la <;> rcases lng with _ | ln <;>
    simp [MapPoint.try_from_lat_lng_deg] at h
  obtain ⟨hv, hpeq⟩ := h
  rw [← hpeq]
  exact hv

lemma valid_entry_distance_ne_top (distFn : MapPoint → MapPoint → ℚ)
    (center : MapPoint) (hc : center.is_valid = true) (e : Entry)
    (he : (MapPoint.try_from_lat_lng_deg e.lat e.lng).isSome = true) :
    distance_to distFn e center ≠ ⊤ := by
  obtain ⟨p, hp⟩ := Option.isSome_iff_exists.mp he
  rw [distance_to, hp]
  simp [MapPoint.distance, try_from_is_valid hp, hc]

lemma invalid_entry_distance_eq_top (distFn : MapPoint → MapPoint → ℚ)
    (center : MapPoint) (e : Entry)
    (ha : ¬ (MapPoint.try_from_lat_lng_deg e.lat e.lng).isSome = true) :
    distance_to distFn e center = ⊤ := by
  rw [Option.not_isSome_iff_eq_none] at ha
  rw [distance_to, ha]
  simp

/-- C9: with an invalid reference point the list is returned unmodified; with
a valid one the result is a permutation of the input sorted ascending by
distance to the reference point, and, since an entry without valid
coordinates is at the infinite distance, every entry with valid coordinates
precedes every entry without (the comparator, built on exact rationals,
never sees an incomparable pair and totalizes `partial_cmp` with `Equal`). -/
theorem C9_sort_by_distance (distFn : MapPoint → MapPoint → ℚ) (center : MapPoint)
    (entries : List Entry) :
    (center.is_valid = false → sort_by_distance_to distFn entries center = entries) ∧
    (center.is_valid = true →
      (sort_by_distance_to distFn entries center).Perm entries ∧
      (sort_by_distance_to distFn entries center).Pairwise
        (fun a b => distance_to distFn a center ≤ distance_to distFn b center) ∧
      (sort_by_distance_to distFn entries center).Pairwise
        (fun a b => (MapPoint.try_from_lat_lng_deg b.lat b.lng).isSome = true →
          (MapPoint.try_from_lat_lng_deg a.lat a.lng).isSome = true)) := by
  constructor
  · intro hc
    rw [sort_by_distance_to, hc]
    simp
  · intro hc
    have hsort : sort_by_distance_to distFn entries center
        = entries.mergeSort fun a b =>
            decide (distanceComparator distFn center a b ≠ Ordering.gt) := by
      rw [sort_by_distance_to, hc]
      simp
    have htrans : ∀ a b c : Entry,
        decide (distanceComparator distFn center a b ≠ Ordering.gt) = true →
        decide (distanceComparator distFn center b c ≠ Ordering.gt) = true →
        decide (distanceComparator distFn center a c ≠ Ordering.gt) = true := by
      intro a b c hab hbc
      rw [comparator_le_iff] at *
      exact le_trans hab hbc
    have htotal : ∀ a b : Entry,
        (decide (distanceComparator distFn center a b ≠ Ordering.gt)
          || decide (distanceComparator distFn center b a ≠ Ordering.gt)) = true := by
      intro a b
      rcases le_total (distance_to distFn a center) (distance_to distFn b center) with h | h
      · rw [Bool.or_eq_true, comparator_le_iff]
        exact Or.inl h
      · rw [Bool.or_eq_true, comparator_le_iff, comparator_le_iff]
        exact Or.inr h
    have hpair : (sort_by_distance_to distFn entries center).Pairwise
        (fun a b => distance_to distFn a center ≤ distance_to distFn b center) := by
      rw [hsort]
      have hs := List.sorted_mergeSort htrans htotal entries
      exact hs.imp fun h => (comparator_le_iff distFn center _ _).mp h
    refine ⟨?_, hpair, ?_⟩
    · rw [hsort]
      exact List.mergeSort_perm entries _
    · refine hpair.imp ?_
      intro a b hle hb
      by_contra ha
      rw [invalid_entry_distance_eq_top distFn center a ha, top_le_iff] at hle
      exact valid_entry_distance_ne_top distFn center hc b hb hle

/-- Witness for C9: squared-euclidean distance function, the origin as a
valid reference point, and a two-entry list containing one entry without
coordinates. -/
theorem C9_witness :
    (MapPoint.mk 0 0).is_valid = true ∧
    ((sort_by_distance_to (fun p q => (p.lat - q.lat) ^ 2 + (p.lng - q.lng) ^ 2)
        [⟨"a", "t", "d", some 1, some 0, [], []⟩, ⟨"b", "t", "d", none, none, [], []⟩]
        ⟨0, 0⟩).Perm
      [⟨"a", "t", "d", some 1, some 0, [], []⟩, ⟨"b", "t", "d", none, none, [], []⟩] ∧
    (sort_by_distance_to (fun p q => (p.lat - q.lat) ^ 2 + (p.lng - q.lng) ^ 2)
        [⟨"a", "t", "d", some 1, some 0, [], []⟩, ⟨"b", "t", "d", none, none, [], []⟩]
        ⟨0, 0⟩).Pairwise
      (fun a b => distance_to (fun p q => (p.lat - q.lat) ^ 2 + (p.lng - q.lng) ^ 2)
          a ⟨0, 0⟩
        ≤ distance_to (fun p q => (p.lat - q.lat) ^ 2 + (p.lng - q.lng) ^ 2) b ⟨0, 0⟩) ∧
    (sort_by_distance_to (fun p q => (p.lat - q.lat) ^ 2 + (p.lng - q.lng) ^ 2)
        [⟨"a", "t", "d", some 1, some 0, [], []⟩, ⟨"b", "t", "d", none, none, [], []⟩]
        ⟨0, 0⟩).Pairwise
      (fun a b => (MapPoint.try_from_lat_lng_deg b.lat b.lng).isSome = true →
        (MapPoint.try_from_lat_lng_deg a.lat a.lng).isSome = true)) :=
  ⟨by norm_num [MapPoint.is_valid],
    (C9_sort_by_distance (fun p q => (p.lat - q.lat) ^ 2 + (p.lng - q.lng) ^ 2) ⟨0, 0⟩
      [⟨"a", "t", "d", some 1, some 0, [], []⟩, ⟨"b", "t", "d", none, none, [], []⟩]).2
      (by norm_num [MapPoint.is_valid])⟩

/-- Witness for the amended C2 at v = 1 in the range [0, 2]. -/
theorem C2_witness :
    ((0:ℚ) ≤ 1 ∧ (1:ℚ) ≤ 2 ∧ (0:ℚ) < 2) ∧
    (|u64_to_f64 (f64_to_u64 1 0 2) 0 2 - 1|
        ≤ max ((2 - 0) / (U64_MAX : ℚ)) F64_EPSILON ∧
      f64_to_u64 2 0 2 = U64_MAX ∧
      (F64_EPSILON < 2 - 0 → f64_to_u64 0 0 2 = 0) ∧
      u64_to_f64 0 0 2 = 0 ∧
      u64_to_f64 U64_MAX 0 2 = 2) :=
  ⟨⟨by norm_num, by norm_num, by norm_num⟩,
    C2_quantization_amended 1 0 2 (by norm_num) (by norm_num) (by norm_num)⟩

end Ofdb
